import Mathlib

/-!
Verification of the datastore task-list service (`datastore/tasks/tasks.go`).

The Go program is a single HTTP handler dispatching on method (GET/POST/DELETE)
to four straight-line operations against a Google Cloud Datastore client:
`AddTask`, `MarkDone`, `ListTasks`, `DeleteTask`, plus a body reader `readMsg`.

Shallow embedding choices:
* Request and message bodies are byte sequences, modelled as `List Nat`
  (each element a byte value).
* `time.Time` creation timestamps are abstract instants, modelled as `Nat`;
  the only operation the program needs on them is the ascending order used
  by the datastore query `Order("created")`.
* The remote datastore is modelled as a `Store`: an association list from
  integer key IDs to stored entities, together with the allocator state used
  by `datastore.IncompleteKey` / `Put` (auto-assigned IDs are positive int64
  values, modelled by a `nextId` counter).  An entity record stores exactly
  the properties the Go struct `Task` declares with `datastore:` tags:
  `description`, `created`, `done`, and `id` (note the Go struct DOES give
  the `Id` field a datastore tag, so an `id` property is physically written).
* The transactional read-modify-write of `MarkDone` becomes an
  `Except DSError Store`: the error case corresponds to the transaction
  rolling back, so no new store is produced.
* `fmt.Fprintf` writes whose text is fully determined are modelled as
  `BodyPart.text` with the exact format string instantiated; error writes
  that interpolate a Go `error` value keep the error as data
  (`BodyPart.markDoneErrText e`, `BodyPart.parseErrText`) since the precise
  rendering of library error strings is outside the program.
-/

namespace DatastoreTasks

/-- The entity record, mirroring the Go struct `Task` field for field:
`Desc string`, `Created time.Time`, `Done bool`, `Id int64` — every field
carries a `datastore:` tag, so all four are stored properties. -/
structure Task where
  desc : List Nat
  created : Nat
  done : Bool
  id : Int
deriving DecidableEq

/-- The datastore, restricted to the `Task` kind this program uses:
entries keyed by integer key ID, plus the auto-ID allocator state.
Fresh IDs assigned by `Put` on an incomplete key are positive int64 values,
modelled by `nextId` starting at 1. -/
structure Store where
  entries : List (Int × Task)
  nextId : Int
deriving DecidableEq

/-- A store with no entities, allocator at its initial (positive) ID. -/
def emptyStore : Store := ⟨[], 1⟩

/-- Datastore errors surfaced to this program.  `noSuchEntity` is
`datastore.ErrNoSuchEntity`, returned by `tx.Get` on a missing key. -/
inductive DSError
  | noSuchEntity
deriving DecidableEq

deriving instance DecidableEq for Except

/-- `tx.Get(key, &task)` inside the transaction: look the key up, yielding
the stored entity (all four stored properties populate the struct). -/
def txGet (s : Store) (key : Int) : Option Task :=
  (s.entries.find? (fun e => e.1 == key)).map Prod.snd

/-- `tx.Put(key, &task)` on a complete key that was just read: overwrite the
entity at that key.  Keys and allocator state are unchanged. -/
def txPut (s : Store) (key : Int) (t : Task) : Store :=
  { s with entries := s.entries.map (fun e => if e.1 == key then (key, t) else e) }

/-- `AddTask` (tasks.go): build `&Task{Desc: desc, Created: time.Now()}` —
the `Done` and `Id` fields are left at their Go zero values `false` and `0` —
then `client.Put` with `datastore.IncompleteKey("Task", nil)`, which assigns
a fresh positive ID and returns the new key. -/
def AddTask (s : Store) (desc : List Nat) (now : Nat) : Store × Int :=
  let task : Task := { desc := desc, created := now, done := false, id := 0 }
  let key := s.nextId
  ({ entries := s.entries ++ [(key, task)], nextId := s.nextId + 1 }, key)

/-- `MarkDone` (tasks.go): inside `client.RunInTransaction`, `tx.Get` the
entity at `datastore.IDKey("Task", taskID, nil)`; on failure return the error
(the transaction commits nothing, so the store is unchanged); otherwise set
`Done = true` and `tx.Put` the record back under the same key. -/
def MarkDone (s : Store) (taskID : Int) : Except DSError Store :=
  match txGet s taskID with
  | none => .error .noSuchEntity
  | some task => .ok (txPut s taskID { task with done := true })

/-- The ordering used by the datastore query `Order("created")`: ascending
by the stored `created` property. -/
def createdLE (a b : Int × Task) : Prop := a.2.created ≤ b.2.created

instance : DecidableRel createdLE := fun a b => Nat.decLe a.2.created b.2.created

instance : IsTotal (Int × Task) createdLE :=
  ⟨fun a b => Nat.le_total a.2.created b.2.created⟩

instance : IsTrans (Int × Task) createdLE :=
  ⟨fun _ _ _ h h2 => Nat.le_trans h h2⟩

/-- Annotation step of `ListTasks`: `tasks[i].Id = keys[i].ID`, overwriting
the (zero-valued) stored `id` property with the key ID. -/
def annotate (e : Int × Task) : Task := { e.2 with id := e.1 }

/-- `ListTasks` (tasks.go): `GetAll` on the query
`datastore.NewQuery("Task").Order("created")` returns all entities together
with their keys, sorted ascending by `created`; then the loop sets each
task's `Id` field from the corresponding key. -/
def ListTasks (s : Store) : List Task :=
  (List.insertionSort createdLE s.entries).map annotate

/-- `DeleteTask` (tasks.go): `client.Delete` on `IDKey("Task", taskID, nil)`.
Defined in the source but not reachable from the HTTP handler. -/
def DeleteTask (s : Store) (taskID : Int) : Store :=
  { s with entries := s.entries.filter (fun e => e.1 != taskID) }

/-- `io.CopyN(&buf, r, 256)` with a finite byte-sequence reader: copies up
to 256 bytes; if the reader is exhausted before 256 bytes were copied the
error is `io.EOF`. -/
inductive CopyErr
  | eof
deriving DecidableEq

/-- The copy step of `readMsg`: bytes copied, and `io.EOF` when the source
held fewer than 256 bytes. -/
def copyN (src : List Nat) (n : Nat) : List Nat × Option CopyErr :=
  if src.length < n then (src, some .eof) else (src.take n, none)

/-- `readMsg` (tasks.go): copy at most 256 bytes of the body into a buffer;
an error is reported only when it is neither `nil` nor `io.EOF` (a
finite-byte-sequence reader never produces such an error), and otherwise the
buffer contents are returned. -/
def readMsg (src : List Nat) : Except Unit (List Nat) :=
  match copyN src 256 with
  | (_, some e) => match e with
    | .eof => .ok (copyN src 256).1
  | (buf, none) => .ok buf

/-- Whether a byte is an ASCII decimal digit, as `strconv` classifies them
in base 10. -/
def isDigit (b : Nat) : Bool := 48 ≤ b && b ≤ 57

/-- The magnitude accumulation of `strconv.ParseInt` in base 10: `none` if
the digit string is empty or holds a non-digit byte. -/
def parseDigits : List Nat → Option Nat
  | [] => none
  | [b] => if isDigit b then some (b - 48) else none
  | b :: rest =>
    if isDigit b then
      (parseDigits rest).map (fun n => (b - 48) * 10 ^ rest.length + n)
    else none

/-- `strconv.ParseInt(s, 10, 64)`: optional leading `+` or `-` (bytes 43 and
45), then one or more decimal digits, and the value must fit in int64
(`-2^63 ≤ n ≤ 2^63 - 1`); anything else — empty string, stray byte, or
overflow — is an error, modelled as `none`. -/
def parseInt64 (bs : List Nat) : Option Int :=
  match bs with
  | [] => none
  | b :: rest =>
    let signed : Bool × List Nat :=
      if b = 45 then (true, rest) else if b = 43 then (false, rest) else (false, bs)
    match parseDigits signed.2 with
    | none => none
    | some n =>
      if signed.1 then
        if n ≤ 2 ^ 63 then some (-(n : Int)) else none
      else
        if n < 2 ^ 63 then some (n : Int) else none

/-- HTTP methods as the handler's `switch r.Method` distinguishes them:
the three handled verbs and everything else. -/
inductive Method
  | get
  | post
  | delete
  | other
deriving DecidableEq

/-- One write to the response body.  `jsonTasks` is
`json.NewEncoder(w).Encode(tasks)`; `text` is an `fmt.Fprintf` whose output
is fully determined; the remaining constructors are `fmt.Fprintf` error
writes whose text interpolates a library error value. -/
inductive BodyPart
  | jsonTasks (ts : List Task)
  | text (s : String)
  | parseErrText
  | markDoneErrText (e : DSError)
deriving DecidableEq

/-- The HTTP response: status code (200 unless `WriteHeader` was called
first) and the sequence of body writes. -/
structure Response where
  status : Nat
  body : List BodyPart
deriving DecidableEq

/-- Datastore operations the handler can issue, for tracing which requests
touch the store: `query` is `GetAll`, `put` is `client.Put`,
`runTransaction` is `client.RunInTransaction`, `del` is `client.Delete`. -/
inductive StoreOp
  | query
  | put
  | runTransaction
  | del
deriving DecidableEq

/-- The HTTP handler (tasks.go `main`): dispatch on method.
* GET: `ListTasks`, encode as JSON (the store read cannot fail in this model).
* POST: `readMsg` the body, `AddTask`, report the new key ID.
* DELETE: `readMsg` the body, `strconv.ParseInt` it (400 on failure, before
  any store operation), then `MarkDone`.  On `MarkDone` error the code writes
  a 500 status and the error text but does NOT return, so the success line
  `task <n> marked done` is written afterwards in both cases — this embeds
  the source's control flow exactly.
* any other method: 405, nothing else.
Returns the response, the resulting store, and the datastore operations
issued. -/
def handle (s : Store) (m : Method) (body : List Nat) (now : Nat) :
    Response × Store × List StoreOp :=
  match m with
  | .get =>
    ({ status := 200, body := [.jsonTasks (ListTasks s)] }, s, [.query])
  | .post =>
    match readMsg body with
    | .error _ =>
      ({ status := 500, body := [] }, s, [])
    | .ok data =>
      let (s2, key) := AddTask s data now
      ({ status := 200,
         body := [.text ("created new task with ID " ++ toString key ++ "\n")] },
       s2, [.put])
  | .delete =>
    match readMsg body with
    | .error _ =>
      ({ status := 500, body := [] }, s, [])
    | .ok idStr =>
      match parseInt64 idStr with
      | none =>
        ({ status := 400, body := [.parseErrText] }, s, [])
      | some id =>
        match MarkDone s id with
        | .error e =>
          ({ status := 500,
             body := [.markDoneErrText e,
                      .text ("task " ++ toString id ++ " marked done\n")] },
           s, [.runTransaction])
        | .ok s2 =>
          ({ status := 200,
             body := [.text ("task " ++ toString id ++ " marked done\n")] },
           s2, [.runTransaction])
  | .other =>
    ({ status := 405, body := [] }, s, [])

/-! ## Helper lemmas -/

/-- The entry `txGet` finds carries the looked-up key and is a member of the
store. -/
theorem txGet_some_mem {s : Store} {key : Int} {t : Task}
    (h : txGet s key = some t) : (key, t) ∈ s.entries := by
  unfold txGet at h
  cases hf : s.entries.find? (fun e => e.1 == key) with
  | none => simp [hf] at h
  | some e =>
    obtain ⟨k0, t0⟩ := e
    have hp : k0 = key := by simpa using List.find?_some hf
    have ht : t0 = t := by simpa [hf] using h
    subst hp; subst ht
    exact List.mem_of_find?_eq_some hf

/-- `txGet` finds the entry as a `find?` fact with the key made explicit. -/
theorem txGet_some_find? {s : Store} {key : Int} {t : Task}
    (h : txGet s key = some t) :
    s.entries.find? (fun e => e.1 == key) = some (key, t) := by
  unfold txGet at h
  cases hf : s.entries.find? (fun e => e.1 == key) with
  | none => simp [hf] at h
  | some e =>
    obtain ⟨k0, t0⟩ := e
    have hp : k0 = key := by simpa using List.find?_some hf
    have ht : t0 = t := by simpa [hf] using h
    subst hp; subst ht; rfl

/-- Overwriting an entry does not disturb the key-lookup predicate: `find?`
over the rewritten list is the rewritten `find?` of the original. -/
theorem find?_put (l : List (Int × Task)) (key : Int) (t : Task) (k : Int) :
    ((l.map fun e => if e.1 == key then (key, t) else e).find? fun e => e.1 == k)
      = (l.find? fun e => e.1 == k).map
          fun e => if e.1 == key then (key, t) else e := by
  rw [List.find?_map]
  have hp : ((fun e : Int × Task => e.1 == k) ∘
      fun e => if e.1 == key then (key, t) else e)
      = fun e : Int × Task => e.1 == k := by
    funext e
    by_cases he : e.1 = key
    · by_cases hk : key = k <;> simp [Function.comp, he, hk]
    · simp [Function.comp, he]
  rw [hp]

/-- Looking up the overwritten key after `txPut` yields the new record. -/
theorem txGet_txPut_self {s : Store} {key : Int} {t0 : Task}
    (h : txGet s key = some t0) (t : Task) :
    txGet (txPut s key t) key = some t := by
  unfold txGet txPut
  simp only [find?_put, txGet_some_find? h]
  simp

/-- Looking up any other key after `txPut` is unchanged. -/
theorem txGet_txPut_ne {s : Store} {key : Int} (t : Task) {k : Int}
    (h : k ≠ key) :
    txGet (txPut s key t) k = txGet s k := by
  unfold txGet txPut
  simp only [find?_put]
  cases hf : s.entries.find? (fun e => e.1 == k) with
  | none => rfl
  | some e =>
    have he : e.1 = k := by simpa using List.find?_some hf
    simp [he, h]

/-- Entries under a different key are exactly preserved by `txPut`. -/
theorem mem_txPut_iff {s : Store} {key : Int} {t : Task} {e : Int × Task}
    (he : e.1 ≠ key) : e ∈ (txPut s key t).entries ↔ e ∈ s.entries := by
  unfold txPut
  constructor
  · intro hm
    obtain ⟨a, ha, hfa⟩ := List.mem_map.mp hm
    by_cases hak : a.1 = key
    · rw [if_pos (by simpa using hak)] at hfa
      exact absurd (congrArg Prod.fst hfa).symm he
    · rw [if_neg (by simpa using hak)] at hfa
      exact hfa ▸ ha
  · intro hm
    exact List.mem_map.mpr ⟨e, hm, if_neg (by simpa using he)⟩

/-- A map that fixes every element of a list is the identity on it. -/
theorem map_id_of_fix (l : List (Int × Task)) (f : Int × Task → Int × Task)
    (h : ∀ e ∈ l, f e = e) : l.map f = l := by
  induction l with
  | nil => rfl
  | cons a l ih =>
    simp only [List.map_cons, h a (by simp)]
    exact congrArg _ (ih (fun e hel => h e (by simp [hel])))

/-- List form of `txPut_self_eq`: overwriting the unique entry under a key
with the record it already holds fixes the list. -/
theorem map_put_id (key : Int) (t : Task) :
    ∀ l : List (Int × Task), (l.map Prod.fst).Nodup →
      l.find? (fun e => e.1 == key) = some (key, t) →
      l.map (fun e => if e.1 == key then (key, t) else e) = l
  | [], _, hf => by simp at hf
  | a :: l, hnd, hf => by
    simp only [List.map_cons, List.nodup_cons] at hnd
    by_cases ha : a.1 = key
    · rw [List.find?_cons_of_pos _ (by simpa using ha)] at hf
      injection hf with hf
      subst hf
      simp only [List.map_cons, ite_self]
      refine congrArg _ (map_id_of_fix _ _ fun e hel => ?_)
      have : e.1 ≠ key := fun hek => hnd.1 (hek ▸ List.mem_map.mpr ⟨e, hel, rfl⟩)
      exact if_neg (by simpa using this)
    · rw [List.find?_cons_of_neg _ (by simpa using ha)] at hf
      have hb : (a.1 == key) = false := by simpa using ha
      simp only [List.map_cons, hb, Bool.false_eq_true, if_false]
      exact congrArg _ (map_put_id key t l hnd.2 hf)

/-- Writing back the very record that is stored (keys being unique) leaves
the store unchanged. -/
theorem txPut_self_eq {s : Store} {key : Int} {t : Task}
    (hnd : (s.entries.map Prod.fst).Nodup)
    (h : txGet s key = some t) :
    txPut s key t = s := by
  have hf := txGet_some_find? h
  unfold txPut
  obtain ⟨l, nid⟩ := s
  simp only [Store.mk.injEq, and_true]
  exact map_put_id key t l (by simpa using hnd) hf

/-- `readMsg` never fails on a finite byte sequence and yields exactly the
first `min 256 (length)` bytes of it. -/
theorem readMsg_eq (src : List Nat) : readMsg src = Except.ok (src.take 256) := by
  simp only [readMsg, copyN]
  by_cases h : src.length < 256
  · simp [h, List.take_of_length_le (Nat.le_of_lt h)]
  · simp [h]

/-! ## Claims -/

/-- C6: For every POST request body, the description passed to `AddTask` is
exactly the first `min 256 length` bytes of the body: bodies longer than 256
bytes are truncated to their first 256 bytes, bodies of 256 bytes or fewer
(the empty body included) are passed whole, and reading them is not an
error. -/
theorem post_truncates_body (s : Store) (body : List Nat) (now : Nat) :
    readMsg body = Except.ok (body.take 256) ∧
    (body.length ≤ 256 → readMsg body = Except.ok body) ∧
    handle s .post body now =
      ({ status := 200,
         body := [.text ("created new task with ID " ++ toString s.nextId ++ "
")] },
       { entries := s.entries ++
           [(s.nextId, { desc := body.take 256, created := now, done := false, id := 0 })],
         nextId := s.nextId + 1 },
       [.put]) := by
  refine ⟨readMsg_eq body,
    fun hle => by rw [readMsg_eq, List.take_of_length_le hle], ?_⟩
  simp [handle, readMsg_eq, AddTask]

/-- Witness for C6 at the two-byte body `"hi"` on the empty store. -/
theorem post_truncates_body_witness :
    handle emptyStore .post [104, 105] 0 =
      ({ status := 200, body := [.text "created new task with ID 1\n"] },
       { entries := [(1, { desc := [104, 105], created := 0, done := false, id := 0 })],
         nextId := 2 },
       [.put]) :=
  ((post_truncates_body emptyStore [104, 105] 0).2.2).trans (by decide)

/-- C9: For every DELETE request whose (truncated) body does not parse as a
base-10 64-bit integer, the handler responds with status 400 and issues no
datastore operation; the store is untouched. -/
theorem delete_bad_id_400 (s : Store) (body : List Nat) (now : Nat)
    (h : parseInt64 (body.take 256) = none) :
    handle s .delete body now =
      ({ status := 400, body := [.parseErrText] }, s, []) := by
  simp [handle, readMsg_eq, h]

/-- Witness for C9 at the non-numeric one-byte body `"x"`. -/
theorem delete_bad_id_400_witness :
    parseInt64 ([120].take 256) = none ∧
    handle emptyStore .delete [120] 0 =
      ({ status := 400, body := [.parseErrText] }, emptyStore, []) :=
  ⟨by decide, delete_bad_id_400 emptyStore [120] 0 (by decide)⟩

/-- C10: For every request whose method is not GET, POST, or DELETE, the
handler responds with status 405, issues no datastore operation of any kind,
and leaves the store unchanged. -/
theorem unsupported_method_405 (s : Store) (body : List Nat) (now : Nat) :
    handle s .other body now = ({ status := 405, body := [] }, s, []) := rfl

/-- C4: For an identifier naming no stored task, `MarkDone` returns the
no-such-entity error, and the DELETE handler then leaves the store exactly
as it was — in particular no entity exists under that identifier
afterwards. -/
theorem markDone_unknown_id (s : Store) (tid : Int) (body : List Nat) (now : Nat)
    (h : txGet s tid = none)
    (hb : parseInt64 (body.take 256) = some tid) :
    MarkDone s tid = .error .noSuchEntity ∧
    (handle s .delete body now).2.1 = s ∧
    txGet (handle s .delete body now).2.1 tid = none := by
  have hm : MarkDone s tid = .error .noSuchEntity := by simp [MarkDone, h]
  refine ⟨hm, ?_, ?_⟩ <;> simp [handle, readMsg_eq, hb, hm, h]

/-- Witness for C4: id 1 on the empty store via the body `"1"`. -/
theorem markDone_unknown_id_witness :
    txGet emptyStore 1 = none ∧ parseInt64 ([49].take 256) = some 1 ∧
    (MarkDone emptyStore 1 = .error .noSuchEntity ∧
     (handle emptyStore .delete [49] 0).2.1 = emptyStore ∧
     txGet (handle emptyStore .delete [49] 0).2.1 1 = none) :=
  ⟨by decide, by decide,
    markDone_unknown_id emptyStore 1 [49] 0 (by decide) (by decide)⟩

/-- C3: `MarkDone` on a stored identifier succeeds; afterwards the task at
that identifier has its done flag true with description, creation time and
stored id untouched, lookups at every other key are unchanged, entries under
every other key are exactly preserved, and the store size and allocator
state are unchanged. -/
theorem markDone_frame (s : Store) (tid : Int) (t : Task)
    (h : txGet s tid = some t) :
    ∃ s2, MarkDone s tid = .ok s2 ∧
      txGet s2 tid = some { t with done := true } ∧
      (∀ k, k ≠ tid → txGet s2 k = txGet s k) ∧
      (∀ e : Int × Task, e.1 ≠ tid → (e ∈ s2.entries ↔ e ∈ s.entries)) ∧
      s2.entries.length = s.entries.length ∧
      s2.nextId = s.nextId := by
  refine ⟨txPut s tid { t with done := true }, by simp [MarkDone, h],
    txGet_txPut_self h _, fun k hk => txGet_txPut_ne _ hk,
    fun e he => mem_txPut_iff he, ?_, rfl⟩
  simp [txPut]

/-- Witness for C3 on a two-task store, marking id 1 done. -/
theorem markDone_frame_witness :
    txGet (⟨[(1, ⟨[104], 3, false, 0⟩), (2, ⟨[106], 5, false, 0⟩)], 3⟩ : Store) 1
      = some ⟨[104], 3, false, 0⟩ ∧
    ∃ s2, MarkDone (⟨[(1, ⟨[104], 3, false, 0⟩), (2, ⟨[106], 5, false, 0⟩)], 3⟩ : Store) 1
        = .ok s2 ∧
      txGet s2 1 = some { (⟨[104], 3, false, 0⟩ : Task) with done := true } ∧
      (∀ k, k ≠ 1 → txGet s2 k
        = txGet (⟨[(1, ⟨[104], 3, false, 0⟩), (2, ⟨[106], 5, false, 0⟩)], 3⟩ : Store) k) ∧
      (∀ e : Int × Task, e.1 ≠ 1 → (e ∈ s2.entries ↔
        e ∈ (⟨[(1, ⟨[104], 3, false, 0⟩), (2, ⟨[106], 5, false, 0⟩)], 3⟩ : Store).entries)) ∧
      s2.entries.length
        = (⟨[(1, ⟨[104], 3, false, 0⟩), (2, ⟨[106], 5, false, 0⟩)], 3⟩ : Store).entries.length ∧
      s2.nextId = (⟨[(1, ⟨[104], 3, false, 0⟩), (2, ⟨[106], 5, false, 0⟩)], 3⟩ : Store).nextId :=
  ⟨by decide,
    markDone_frame (⟨[(1, ⟨[104], 3, false, 0⟩), (2, ⟨[106], 5, false, 0⟩)], 3⟩ : Store)
      1 ⟨[104], 3, false, 0⟩ (by decide)⟩

/-- C7: re-marking an already-done task is a successful no-op overwrite: the
resulting store equals the original one. -/
theorem markDone_idempotent (s : Store) (tid : Int) (t : Task)
    (hnd : (s.entries.map Prod.fst).Nodup)
    (h : txGet s tid = some t) (hdone : t.done = true) :
    MarkDone s tid = .ok s := by
  have ht : { t with done := true } = t := by
    cases t
    simp_all
  simp [MarkDone, h, ht, txPut_self_eq hnd h]

/-- Witness for C7 on a store whose task 1 is already done. -/
theorem markDone_idempotent_witness :
    ((⟨[(1, ⟨[104], 3, true, 0⟩)], 2⟩ : Store).entries.map Prod.fst).Nodup ∧
    txGet (⟨[(1, ⟨[104], 3, true, 0⟩)], 2⟩ : Store) 1 = some ⟨[104], 3, true, 0⟩ ∧
    (⟨[104], 3, true, 0⟩ : Task).done = true ∧
    MarkDone (⟨[(1, ⟨[104], 3, true, 0⟩)], 2⟩ : Store) 1
      = .ok (⟨[(1, ⟨[104], 3, true, 0⟩)], 2⟩ : Store) :=
  ⟨by decide, by decide, rfl,
    markDone_idempotent (⟨[(1, ⟨[104], 3, true, 0⟩)], 2⟩ : Store) 1
      ⟨[104], 3, true, 0⟩ (by decide) (by decide) rfl⟩

/-- Every entity physically stored carries a zero `id` property: the record
written never holds the assigned identifier. -/
def zeroIds (s : Store) : Prop := ∀ e ∈ s.entries, e.2.id = 0

/-- C2: the identifier is not stored as a meaningful attribute.  `AddTask`
writes the Go zero value `0` into the stored `id` property, `MarkDone`
preserves whatever zero `id` the record held, and the `Id` readers see is
reconstructed from the store key by `ListTasks`. -/
theorem id_reconstructed_from_key (s s2 : Store) (desc : List Nat)
    (now : Nat) (tid : Int) (hz : zeroIds s) :
    zeroIds (AddTask s desc now).1 ∧
    (MarkDone s tid = .ok s2 → zeroIds s2) ∧
    (∀ t ∈ ListTasks s, ∃ e ∈ s.entries, t = { e.2 with id := e.1 }) := by
  refine ⟨?_, ?_, ?_⟩
  · intro e he
    simp only [AddTask, List.mem_append, List.mem_singleton] at he
    rcases he with he | he
    · exact hz e he
    · simp [he]
  · intro hmd e he
    cases hg : txGet s tid with
    | none => simp [MarkDone, hg] at hmd
    | some task =>
      have htask : task.id = 0 := hz _ (txGet_some_mem hg)
      simp only [MarkDone, hg] at hmd
      injection hmd with hmd
      subst hmd
      simp only [txPut] at he
      obtain ⟨a, ha, hfa⟩ := List.mem_map.mp he
      by_cases hak : a.1 = tid
      · rw [if_pos (by simpa using hak)] at hfa
        rw [← hfa]
        simpa using htask
      · have hb : (a.1 == tid) = false := by simpa using hak
        rw [hb] at hfa
        simp only [Bool.false_eq_true, if_false] at hfa
        exact hfa ▸ hz a ha
  · intro t ht
    obtain ⟨e, he, hfe⟩ := List.mem_map.mp ht
    exact ⟨e, (List.mem_insertionSort createdLE).mp he, hfe.symm⟩

/-- Witness for C2: marking the one task of a concrete store done keeps the
stored `id` at zero. -/
theorem id_reconstructed_from_key_witness :
    zeroIds (⟨[(1, ⟨[104], 3, false, 0⟩)], 2⟩ : Store) ∧
    MarkDone (⟨[(1, ⟨[104], 3, false, 0⟩)], 2⟩ : Store) 1
      = .ok (⟨[(1, ⟨[104], 3, true, 0⟩)], 2⟩ : Store) ∧
    (zeroIds (AddTask (⟨[(1, ⟨[104], 3, false, 0⟩)], 2⟩ : Store) [105] 7).1 ∧
     (MarkDone (⟨[(1, ⟨[104], 3, false, 0⟩)], 2⟩ : Store) 1
        = .ok (⟨[(1, ⟨[104], 3, true, 0⟩)], 2⟩ : Store) →
      zeroIds (⟨[(1, ⟨[104], 3, true, 0⟩)], 2⟩ : Store)) ∧
     (∀ t ∈ ListTasks (⟨[(1, ⟨[104], 3, false, 0⟩)], 2⟩ : Store),
       ∃ e ∈ (⟨[(1, ⟨[104], 3, false, 0⟩)], 2⟩ : Store).entries,
         t = { e.2 with id := e.1 })) := by
  have hz : zeroIds (⟨[(1, ⟨[104], 3, false, 0⟩)], 2⟩ : Store) := by
    unfold zeroIds
    decide
  exact ⟨hz, by decide,
    id_reconstructed_from_key (⟨[(1, ⟨[104], 3, false, 0⟩)], 2⟩ : Store)
      (⟨[(1, ⟨[104], 3, true, 0⟩)], 2⟩ : Store) [105] 7 1 hz⟩

/-- C5: `ListTasks` returns exactly the stored tasks (as a permutation of
the key-annotated entries), in non-decreasing order of creation time, and
each returned task is a stored record whose `Id` field is the ID of its
store key. -/
theorem listTasks_sorted_annotated (s : Store) :
    (ListTasks s).Perm (s.entries.map annotate) ∧
    List.Sorted (fun a b : Task => a.created ≤ b.created) (ListTasks s) ∧
    (∀ t ∈ ListTasks s, ∃ e ∈ s.entries, t = { e.2 with id := e.1 } ∧ t.id = e.1) := by
  refine ⟨(List.perm_insertionSort createdLE s.entries).map annotate, ?_, ?_⟩
  · exact (List.sorted_insertionSort createdLE s.entries).map annotate
      (fun a b h => h)
  · intro t ht
    obtain ⟨e, he, hfe⟩ := List.mem_map.mp ht
    exact ⟨e, (List.mem_insertionSort createdLE).mp he, hfe.symm, by rw [← hfe]; rfl⟩

/-- C8: adding a task and then listing yields the new task, carrying the
non-zero identifier `AddTask` returned, the original description, and a
false done flag. -/
theorem addTask_listed (s : Store) (desc : List Nat) (now : Nat)
    (h : 0 < s.nextId) :
    (AddTask s desc now).2 ≠ 0 ∧
    ({ desc := desc, created := now, done := false,
       id := (AddTask s desc now).2 } : Task) ∈ ListTasks (AddTask s desc now).1 := by
  simp only [AddTask]
  refine ⟨by omega, ?_⟩
  unfold ListTasks
  refine List.mem_map.mpr
    ⟨(s.nextId, { desc := desc, created := now, done := false, id := 0 }), ?_, rfl⟩
  exact (List.mem_insertionSort createdLE).mpr (by simp)

/-- Witness for C8 on the empty store. -/
theorem addTask_listed_witness :
    0 < emptyStore.nextId ∧
    (AddTask emptyStore [104] 5).2 ≠ 0 ∧
    ({ desc := [104], created := 5, done := false,
       id := (AddTask emptyStore [104] 5).2 } : Task)
      ∈ ListTasks (AddTask emptyStore [104] 5).1 :=
  ⟨by decide, addTask_listed emptyStore [104] 5 (by decide)⟩

/-- C1 (code-bug exhibit): on a DELETE whose body parses as an integer id
for which `MarkDone` fails, the handler writes the 500 status and the error
text, but — the error branch of the source does not return — the success
line `task 1 marked done` is written to the response as well, so the
success message is not written only when `MarkDone` succeeds. -/
theorem delete_error_also_writes_success :
    (handle emptyStore .delete [49] 0).1.status = 500 ∧
    BodyPart.markDoneErrText .noSuchEntity ∈ (handle emptyStore .delete [49] 0).1.body ∧
    BodyPart.text "task 1 marked done\n" ∈ (handle emptyStore .delete [49] 0).1.body ∧
    MarkDone emptyStore 1 = .error .noSuchEntity := by
  decide

end DatastoreTasks
